import Mathlib
set_option maxRecDepth 10000

/-!
Shallow embedding of the Raite trading analytics core (position/holding
ledger, SMA-crossover backtest simulator, open-interest classifier).

Numbers are modelled as exact rationals (the TypeScript source computes on
IEEE doubles over DECIMAL database columns; the claims are about the exact
arithmetic of the formulas).  Database rows become record values, the
repository tables become association lists inside an explicit `TradingState`,
and thrown errors become `Except` values.  JavaScript's `x || y` fallback on
numbers (which treats both `null`/`undefined` and `0` as absent) is modelled
explicitly by `jsOr` / `jsOrQ`.
-/

namespace Raite

/-- Order side (`order_side` enum in the schema). -/
inductive Side
  | BUY
  | SELL
deriving DecidableEq

/-- Order status (`order_status` enum in the schema). -/
inductive OrderStatus
  | PENDING
  | FILLED
  | CANCELLED
deriving DecidableEq

/-- Position status (`position_status` enum in the schema). -/
inductive PositionStatus
  | OPEN
  | CLOSED
deriving DecidableEq

/-- A row of the `orders` table.  `filled_quantity` defaults to `0` in the
schema; `filled_price` is nullable and is modelled as `0` when absent, which
is faithful because every read of it in the source goes through the
JavaScript `order.filled_price || order.price` fallback, which does not
distinguish `null` from `0`. -/
structure Order where
  id : Nat
  instrument : String
  side : Side
  quantity : ℚ
  price : ℚ
  status : OrderStatus
  filled_quantity : ℚ
  filled_price : ℚ
deriving DecidableEq

/-- A row of the `holdings` table (one per instrument). -/
structure Holding where
  quantity : ℚ
  average_price : ℚ
  total_value : ℚ
  unrealized_pnl : ℚ
  realized_pnl : ℚ
deriving DecidableEq

/-- A row of the `positions` table. -/
structure Position where
  id : Nat
  instrument : String
  side : Side
  entry_price : ℚ
  exit_price : Option ℚ
  quantity : ℚ
  status : PositionStatus
  pnl : ℚ
deriving DecidableEq

/-- JavaScript `x || y` where `x` is a possibly-absent number:
`null`/`undefined` and `0` both fall back to `y`. -/
def jsOr (x : Option ℚ) (y : ℚ) : ℚ :=
  match x with
  | none => y
  | some v => if v = 0 then y else v

/-- JavaScript `x || y` where `x` is a (present) number: `0` falls back. -/
def jsOrQ (x y : ℚ) : ℚ :=
  if x = 0 then y else x

/-- The signed quantity of a filled order, as computed at
`PaperTradingService.updateHoldingFromOrder` lines 179/184:
`order.side === 'BUY' ? order.filled_quantity : -order.filled_quantity`. -/
def signedQty (order : Order) : ℚ :=
  match order.side with
  | Side.BUY => order.filled_quantity
  | Side.SELL => -order.filled_quantity

/-- The effective fill price of an order: `order.filled_price || order.price`
(lines 180/185/221 of `PaperTradingService`). -/
def fillPrice (order : Order) : ℚ :=
  jsOrQ order.filled_price order.price

/-- `PositionRepository.calculatePnl`: signed price difference times
quantity. -/
def calculatePnl (position : Position) (currentPrice : ℚ) : ℚ :=
  let priceDiff :=
    match position.side with
    | Side.BUY => currentPrice - position.entry_price
    | Side.SELL => position.entry_price - currentPrice
  priceDiff * position.quantity

/-- `HoldingRepository.updateHolding`: `INSERT ... ON CONFLICT (instrument)
DO UPDATE` that overwrites quantity, average price and total value
(`quantity * averagePrice`) but accumulates
`realized_pnl = holdings.realized_pnl + EXCLUDED.realized_pnl`.
On a fresh insert, `unrealized_pnl` takes its schema default `0`. -/
def updateHolding (stored : Option Holding) (quantity averagePrice realizedPnl : ℚ) :
    Holding :=
  let totalValue := quantity * averagePrice
  match stored with
  | none =>
      { quantity := quantity, average_price := averagePrice, total_value := totalValue,
        unrealized_pnl := 0, realized_pnl := realizedPnl }
  | some h =>
      { quantity := quantity, average_price := averagePrice, total_value := totalValue,
        unrealized_pnl := h.unrealized_pnl, realized_pnl := h.realized_pnl + realizedPnl }

/-- The `(newQuantity, newAveragePrice, realizedPnL)` triple computed by
`PaperTradingService.updateHoldingFromOrder` (lines 170-215) before its final
call to `holdingRepository.updateHolding`. -/
def holdingUpdateValues (existingHolding : Option Holding) (order : Order) :
    ℚ × ℚ × ℚ :=
  match existingHolding with
  | none => (signedQty order, fillPrice order, 0)
  | some existing =>
    if existing.quantity = 0 then
      (signedQty order, fillPrice order, 0)
    else
      let currentQuantity := existing.quantity
      let currentAveragePrice := existing.average_price
      let orderQuantity := signedQty order
      let orderPrice := fillPrice order
      if (currentQuantity > 0 ∧ orderQuantity > 0) ∨
          (currentQuantity < 0 ∧ orderQuantity < 0) then
        -- Same direction - average the price
        let totalValue := currentQuantity * currentAveragePrice + orderQuantity * orderPrice
        let newQuantity := currentQuantity + orderQuantity
        (newQuantity, totalValue / newQuantity, 0)
      else
        -- Opposite direction - realize PnL
        let closingQuantity := min |currentQuantity| |orderQuantity|
        let realizedPnL :=
          if currentQuantity > 0 then
            closingQuantity * (orderPrice - currentAveragePrice)
          else
            closingQuantity * (currentAveragePrice - orderPrice)
        let newQuantity := currentQuantity + orderQuantity
        let newAveragePrice :=
          if newQuantity = 0 then 0
          else if |newQuantity| = |orderQuantity| then orderPrice
          else currentAveragePrice
        (newQuantity, newAveragePrice, realizedPnL)

/-- `PaperTradingService.updateHoldingFromOrder`: compute the new holding
values for a filled order and fold them into the stored holding via
`HoldingRepository.updateHolding`. -/
def updateHoldingFromOrder (existingHolding : Option Holding) (order : Order) :
    Holding :=
  let v := holdingUpdateValues existingHolding order
  updateHolding existingHolding v.1 v.2.1 v.2.2

/-- Applying a sequence of filled orders to one instrument's holding,
starting from no holding (each fill goes through
`updateHoldingFromOrder`). -/
def applyFills (fills : List Order) : Option Holding :=
  fills.foldl (fun h o => some (updateHoldingFromOrder h o)) none

/-- The quantity of a possibly-absent holding (absent counts as flat). -/
def holdingQty (h : Option Holding) : ℚ :=
  (h.map Holding.quantity).getD 0

/-! ## The ledger quantity invariant (C3) and realization rule (C2) -/

theorem updateHolding_quantity (stored : Option Holding) (q a r : ℚ) :
    (updateHolding stored q a r).quantity = q := by
  cases stored <;> rfl

theorem updateHolding_realized (stored : Option Holding) (q a r : ℚ) :
    (updateHolding stored q a r).realized_pnl =
      (stored.map Holding.realized_pnl).getD 0 + r := by
  cases stored <;> simp [updateHolding]

/-- Every branch of the holding update produces `existing + signed fill
quantity` as the new quantity (a fresh or flat holding counting as `0`). -/
theorem updateHoldingFromOrder_quantity (h : Option Holding) (o : Order) :
    (updateHoldingFromOrder h o).quantity = holdingQty h + signedQty o := by
  rcases h with _ | hh
  · simp [updateHoldingFromOrder, holdingUpdateValues, updateHolding_quantity, holdingQty]
  · by_cases h0 : hh.quantity = 0
    · simp [updateHoldingFromOrder, holdingUpdateValues, updateHolding_quantity,
        holdingQty, h0]
    · simp only [updateHoldingFromOrder, holdingUpdateValues, if_neg h0,
        updateHolding_quantity, holdingQty, Option.map_some, Option.getD_some]
      split_ifs <;> rfl

theorem applyFills_loop (fills : List Order) (h : Option Holding) :
    holdingQty (fills.foldl (fun h o => some (updateHoldingFromOrder h o)) h)
      = holdingQty h + (fills.map signedQty).sum := by
  induction fills generalizing h with
  | nil => simp
  | cons o rest ih =>
      rw [List.foldl_cons, ih, List.map_cons, List.sum_cons]
      have hstep : holdingQty (some (updateHoldingFromOrder h o))
          = holdingQty h + signedQty o := updateHoldingFromOrder_quantity h o
      rw [hstep]
      ring

/-- C3: for every finite sequence of fills (each with positive price and
quantity) applied to one instrument starting from no holding, the holding's
quantity after the sequence equals the signed sum of the fill quantities
(BUY positive, SELL negative). -/
theorem holding_quantity_eq_signed_sum (fills : List Order)
    (_hpos : ∀ o ∈ fills, 0 < o.filled_quantity ∧ 0 < fillPrice o) :
    holdingQty (applyFills fills) = (fills.map signedQty).sum := by
  have h := applyFills_loop fills none
  simpa [applyFills, holdingQty] using h

def C3buy : Order := ⟨0, "NIFTY", Side.BUY, 10, 100, OrderStatus.FILLED, 10, 100⟩

def C3sell : Order := ⟨1, "NIFTY", Side.SELL, 4, 120, OrderStatus.FILLED, 4, 120⟩

theorem holding_quantity_eq_signed_sum_witness :
    holdingQty (applyFills [C3buy, C3sell]) = ([C3buy, C3sell].map signedQty).sum :=
  holding_quantity_eq_signed_sum [C3buy, C3sell] (by with_unfolding_all decide)

def C2holding : Holding := ⟨10, 100, 1000, 0, 0⟩

def C2order : Order := ⟨1, "NIFTY", Side.SELL, 4, 120, OrderStatus.FILLED, 4, 120⟩

/-- C2: on a fill whose signed quantity `q` has the opposite sign of the
existing holding quantity, the realized P&L added to the holding is
`closing_qty * (p - avg)` for a long and `closing_qty * (avg - p)` for a
short, with `closing_qty = min |existing| |q|`, and the new quantity is
`existing + q`; in particular a long of 10 @ 100 reduced by a SELL of 4
@ 120 realizes exactly 80 and leaves quantity 6 at average price 100. -/
theorem realized_pnl_on_reduction :
    (∀ (existing : Holding) (order : Order),
        existing.quantity * signedQty order < 0 →
        (updateHoldingFromOrder (some existing) order).quantity
            = existing.quantity + signedQty order ∧
        (updateHoldingFromOrder (some existing) order).realized_pnl
            = existing.realized_pnl +
              (if 0 < existing.quantity then
                min |existing.quantity| |signedQty order| *
                  (fillPrice order - existing.average_price)
              else
                min |existing.quantity| |signedQty order| *
                  (existing.average_price - fillPrice order)))
    ∧ updateHoldingFromOrder (some C2holding) C2order = ⟨6, 100, 600, 0, 80⟩ := by
  constructor
  · intro existing order hopp
    have hq0 : ¬ existing.quantity = 0 := by
      intro h
      rw [h, zero_mul] at hopp
      exact lt_irrefl 0 hopp
    have hnotsame :
        ¬ ((existing.quantity > 0 ∧ signedQty order > 0) ∨
            (existing.quantity < 0 ∧ signedQty order < 0)) := by
      rintro (⟨h1, h2⟩ | ⟨h1, h2⟩)
      · exact absurd hopp (not_lt.mpr (le_of_lt (mul_pos h1 h2)))
      · exact absurd hopp (not_lt.mpr (le_of_lt (mul_pos_of_neg_of_neg h1 h2)))
    refine ⟨?_, ?_⟩
    · simp [updateHoldingFromOrder, holdingUpdateValues, if_neg hq0, if_neg hnotsame,
        updateHolding]
    · simp only [updateHoldingFromOrder, holdingUpdateValues, if_neg hq0, if_neg hnotsame,
        updateHolding]
  · with_unfolding_all decide

theorem realized_pnl_on_reduction_witness :
    (updateHoldingFromOrder (some C2holding) C2order).quantity
        = C2holding.quantity + signedQty C2order ∧
    (updateHoldingFromOrder (some C2holding) C2order).realized_pnl
        = C2holding.realized_pnl +
          (if 0 < C2holding.quantity then
            min |C2holding.quantity| |signedQty C2order| *
              (fillPrice C2order - C2holding.average_price)
          else
            min |C2holding.quantity| |signedQty C2order| *
              (C2holding.average_price - fillPrice C2order)) :=
  realized_pnl_on_reduction.1 C2holding C2order (by with_unfolding_all decide)

/-- C1 (code behaviour at the failing inputs): on a fill that fully reverses
the sign of the holding (long 5 @ 100, SELL 8 @ 120) the code keeps the old
average price 100 instead of the fill price; on a partial reduction with
`|existing| = 2 * |q|` (long 10 @ 100, SELL 5 @ 120) the code replaces the
average price by the fill price 120 instead of keeping it: the ternary
`Math.abs(newQuantity) === Math.abs(orderQuantity)` at line 209 never holds
on a true reversal and holds exactly on those half-closes. -/
theorem average_price_code_behaviour :
    (updateHoldingFromOrder (some ⟨5, 100, 500, 0, 0⟩)
        ⟨1, "NIFTY", Side.SELL, 8, 120, OrderStatus.FILLED, 8, 120⟩).average_price
      = 100 ∧
    (updateHoldingFromOrder (some ⟨10, 100, 1000, 0, 0⟩)
        ⟨1, "NIFTY", Side.SELL, 5, 120, OrderStatus.FILLED, 5, 120⟩).average_price
      = 120 := by
  with_unfolding_all decide

/-! ## Open-interest interpretation classifier (`HistoricalDataService`) -/

/-- A row of the `candles` table (the fields the analytics core reads). -/
structure Candle where
  id : Nat
  instrument : String
  epoch_time : Nat
  close_price : ℚ
  open_interest : ℚ
deriving DecidableEq

/-- A price or OI movement direction. -/
inductive Direction
  | UP
  | DOWN
  | FLAT
deriving DecidableEq

/-- The `OIInterpretation` union type. -/
inductive OIInterpretation
  | LONG_BUILDUP
  | SHORT_BUILDUP
  | LONG_UNWINDING
  | SHORT_COVERING
  | INCONCLUSIVE
deriving DecidableEq

/-- Classifier confidence. -/
inductive Confidence
  | HIGH
  | MEDIUM
  | LOW
deriving DecidableEq

/-- The `OIAnalysis` record returned by the classifier. -/
structure OIAnalysis where
  interpretation : OIInterpretation
  priceChange : ℚ
  oiChange : ℚ
  priceDirection : Direction
  oiDirection : Direction
  confidence : Confidence
deriving DecidableEq

/-- `priceChange = currentCandle.close_price - previousCandle.close_price`. -/
def priceChangeOf (previousCandle currentCandle : Candle) : ℚ :=
  currentCandle.close_price - previousCandle.close_price

/-- `oiChange = currentCandle.open_interest - previousCandle.open_interest`. -/
def oiChangeOf (previousCandle currentCandle : Candle) : ℚ :=
  currentCandle.open_interest - previousCandle.open_interest

/-- `priceChangePercent = (priceChange / previousCandle.close_price) * 100`. -/
def priceChangePercentOf (previousCandle currentCandle : Candle) : ℚ :=
  priceChangeOf previousCandle currentCandle / previousCandle.close_price * 100

/-- `oiChangePercent`, guarded by `previousCandle.open_interest > 0`. -/
def oiChangePercentOf (previousCandle currentCandle : Candle) : ℚ :=
  if previousCandle.open_interest > 0 then
    oiChangeOf previousCandle currentCandle / previousCandle.open_interest * 100
  else 0

/-- Price direction: FLAT when `|priceChangePercent| < PRICE_THRESHOLD`
(0.1), else UP/DOWN by the sign of `priceChange`. -/
def priceDirectionOf (previousCandle currentCandle : Candle) : Direction :=
  if |priceChangePercentOf previousCandle currentCandle| < 1/10 then Direction.FLAT
  else if priceChangeOf previousCandle currentCandle > 0 then Direction.UP
  else Direction.DOWN

/-- OI direction: FLAT when `|oiChangePercent| < OI_THRESHOLD` (1.0), else
UP/DOWN by the sign of `oiChange`. -/
def oiDirectionOf (previousCandle currentCandle : Candle) : Direction :=
  if |oiChangePercentOf previousCandle currentCandle| < 1 then Direction.FLAT
  else if oiChangeOf previousCandle currentCandle > 0 then Direction.UP
  else Direction.DOWN

/-- The interpretation if/else-if chain of
`HistoricalDataService.calculateOIInterpretation` (lines 277-298), branch
for branch. -/
def interpretationOf (priceDirection oiDirection : Direction) : OIInterpretation :=
  if priceDirection = Direction.UP ∧ oiDirection = Direction.UP then
    OIInterpretation.LONG_BUILDUP
  else if priceDirection = Direction.DOWN ∧ oiDirection = Direction.UP then
    OIInterpretation.SHORT_BUILDUP
  else if priceDirection = Direction.DOWN ∧ oiDirection = Direction.DOWN then
    OIInterpretation.LONG_UNWINDING
  else if priceDirection = Direction.UP ∧ oiDirection = Direction.DOWN then
    OIInterpretation.SHORT_COVERING
  else
    OIInterpretation.INCONCLUSIVE

/-- The confidence expression, identical in each of the four definite
branches of the source, and LOW in the INCONCLUSIVE branch. -/
def confidenceOf (previousCandle currentCandle : Candle)
    (interpretation : OIInterpretation) : Confidence :=
  if interpretation = OIInterpretation.INCONCLUSIVE then Confidence.LOW
  else if |priceChangePercentOf previousCandle currentCandle| > 1/2 ∧
      |oiChangePercentOf previousCandle currentCandle| > 2 then Confidence.HIGH
  else if |priceChangePercentOf previousCandle currentCandle| > 1/5 ∧
      |oiChangePercentOf previousCandle currentCandle| > 1 then Confidence.MEDIUM
  else Confidence.LOW

/-- `HistoricalDataService.calculateOIInterpretation` (lines 249-306): the
OI positioning classifier for one ordered candle pair. -/
def calculateOIInterpretation (previousCandle currentCandle : Candle) : OIAnalysis :=
  let interpretation :=
    interpretationOf (priceDirectionOf previousCandle currentCandle)
      (oiDirectionOf previousCandle currentCandle)
  { interpretation := interpretation,
    priceChange := priceChangeOf previousCandle currentCandle,
    oiChange := oiChangeOf previousCandle currentCandle,
    priceDirection := priceDirectionOf previousCandle currentCandle,
    oiDirection := oiDirectionOf previousCandle currentCandle,
    confidence := confidenceOf previousCandle currentCandle interpretation }

theorem interpretationOf_flat_price (od : Direction) :
    interpretationOf Direction.FLAT od = OIInterpretation.INCONCLUSIVE := by
  cases od <;> rfl

theorem interpretationOf_flat_oi (pd : Direction) :
    interpretationOf pd Direction.FLAT = OIInterpretation.INCONCLUSIVE := by
  cases pd <;> rfl

/-- C6: the classifier returns the four definite labels exactly on the four
non-FLAT direction quadrants and INCONCLUSIVE whenever either direction is
FLAT; in particular whenever `|price_change_pct| < 0.1` the interpretation
is INCONCLUSIVE regardless of the OI movement. -/
theorem classify_quadrants (p c : Candle) (_hclose : 0 < p.close_price) :
    ((calculateOIInterpretation p c).priceDirection = Direction.UP ∧
        (calculateOIInterpretation p c).oiDirection = Direction.UP →
      (calculateOIInterpretation p c).interpretation = OIInterpretation.LONG_BUILDUP) ∧
    ((calculateOIInterpretation p c).priceDirection = Direction.DOWN ∧
        (calculateOIInterpretation p c).oiDirection = Direction.UP →
      (calculateOIInterpretation p c).interpretation = OIInterpretation.SHORT_BUILDUP) ∧
    ((calculateOIInterpretation p c).priceDirection = Direction.DOWN ∧
        (calculateOIInterpretation p c).oiDirection = Direction.DOWN →
      (calculateOIInterpretation p c).interpretation = OIInterpretation.LONG_UNWINDING) ∧
    ((calculateOIInterpretation p c).priceDirection = Direction.UP ∧
        (calculateOIInterpretation p c).oiDirection = Direction.DOWN →
      (calculateOIInterpretation p c).interpretation = OIInterpretation.SHORT_COVERING) ∧
    ((calculateOIInterpretation p c).priceDirection = Direction.FLAT ∨
        (calculateOIInterpretation p c).oiDirection = Direction.FLAT →
      (calculateOIInterpretation p c).interpretation = OIInterpretation.INCONCLUSIVE) ∧
    (|(c.close_price - p.close_price) / p.close_price * 100| < 1/10 →
      (calculateOIInterpretation p c).interpretation = OIInterpretation.INCONCLUSIVE) := by
  have hinterp : (calculateOIInterpretation p c).interpretation
      = interpretationOf (calculateOIInterpretation p c).priceDirection
          (calculateOIInterpretation p c).oiDirection := rfl
  refine ⟨?_, ?_, ?_, ?_, ?_, ?_⟩
  · rintro ⟨h1, h2⟩
    rw [hinterp, h1, h2]
    decide
  · rintro ⟨h1, h2⟩
    rw [hinterp, h1, h2]
    decide
  · rintro ⟨h1, h2⟩
    rw [hinterp, h1, h2]
    decide
  · rintro ⟨h1, h2⟩
    rw [hinterp, h1, h2]
    decide
  · rintro (h | h)
    · rw [hinterp, h, interpretationOf_flat_price]
    · rw [hinterp, h, interpretationOf_flat_oi]
  · intro h
    have hpd : (calculateOIInterpretation p c).priceDirection = Direction.FLAT := by
      show priceDirectionOf p c = Direction.FLAT
      unfold priceDirectionOf
      rw [if_pos]
      exact h
    rw [hinterp, hpd, interpretationOf_flat_price]

def C6prev : Candle := ⟨0, "NIFTY", 1000, 100, 1000⟩

def C6cur : Candle := ⟨1, "NIFTY", 1060, 506/5, 1050⟩

theorem classify_quadrants_witness :
    ((calculateOIInterpretation C6prev C6cur).priceDirection = Direction.UP ∧
        (calculateOIInterpretation C6prev C6cur).oiDirection = Direction.UP →
      (calculateOIInterpretation C6prev C6cur).interpretation
        = OIInterpretation.LONG_BUILDUP) ∧
    ((calculateOIInterpretation C6prev C6cur).priceDirection = Direction.DOWN ∧
        (calculateOIInterpretation C6prev C6cur).oiDirection = Direction.UP →
      (calculateOIInterpretation C6prev C6cur).interpretation
        = OIInterpretation.SHORT_BUILDUP) ∧
    ((calculateOIInterpretation C6prev C6cur).priceDirection = Direction.DOWN ∧
        (calculateOIInterpretation C6prev C6cur).oiDirection = Direction.DOWN →
      (calculateOIInterpretation C6prev C6cur).interpretation
        = OIInterpretation.LONG_UNWINDING) ∧
    ((calculateOIInterpretation C6prev C6cur).priceDirection = Direction.UP ∧
        (calculateOIInterpretation C6prev C6cur).oiDirection = Direction.DOWN →
      (calculateOIInterpretation C6prev C6cur).interpretation
        = OIInterpretation.SHORT_COVERING) ∧
    ((calculateOIInterpretation C6prev C6cur).priceDirection = Direction.FLAT ∨
        (calculateOIInterpretation C6prev C6cur).oiDirection = Direction.FLAT →
      (calculateOIInterpretation C6prev C6cur).interpretation
        = OIInterpretation.INCONCLUSIVE) ∧
    (|(C6cur.close_price - C6prev.close_price) / C6prev.close_price * 100| < 1/10 →
      (calculateOIInterpretation C6prev C6cur).interpretation
        = OIInterpretation.INCONCLUSIVE) :=
  classify_quadrants C6prev C6cur (by with_unfolding_all decide)

/-! ## Backtest simulator (`StrategyService`) -/

/-- A placeholder candle for the (never-reached) out-of-range access
`candles[i]`. -/
def dummyCandle : Candle :=
  ⟨0, "", 0, 0, 0⟩

/-- `StrategyService.calculateSMA`: mean of the closes of the (at most)
`period` candles ending at and including `index`, clipped at the series
start (`start = max(0, index - period + 1)`). -/
def calculateSMA (candles : List Candle) (index period : Nat) : ℚ :=
  let start := index + 1 - period
  let slice := (candles.drop start).take (index + 1 - start)
  (slice.map Candle.close_price).sum / (slice.length : ℚ)

/-- The accumulating state of `simulateStrategy`'s loop: the positions
created so far and the id the repository will give the next one. -/
structure SimState where
  positions : List Position
  nextId : Nat
deriving DecidableEq

/-- The position `positionRepository.createPosition` inserts for a golden
cross at candle `c`: side BUY, entry at `c.close_price`, fixed quantity 100,
status OPEN. -/
def mkSimPosition (id : Nat) (c : Candle) : Position :=
  { id := id, instrument := c.instrument, side := Side.BUY,
    entry_price := c.close_price, exit_price := none, quantity := 100,
    status := PositionStatus.OPEN, pnl := 0 }

/-- One iteration of the `simulateStrategy` loop (part_002 lines 208-241):
a golden cross (`prevShort <= prevLong && short > long`) creates a new BUY
position of 100 units at `close[i]`; a death cross
(`prevShort >= prevLong && short < long`, with a nonempty position list)
closes the most recently created position if it is still OPEN. -/
def simStep (shortPeriod longPeriod : Nat) (candles : List Candle)
    (state : SimState) (i : Nat) : SimState :=
  let shortSMA := calculateSMA candles i shortPeriod
  let longSMA := calculateSMA candles i longPeriod
  let prevShortSMA := calculateSMA candles (i - 1) shortPeriod
  let prevLongSMA := calculateSMA candles (i - 1) longPeriod
  let c := candles.getD i dummyCandle
  let state1 :=
    if prevShortSMA ≤ prevLongSMA ∧ shortSMA > longSMA then
      { positions := state.positions ++ [mkSimPosition state.nextId c],
        nextId := state.nextId + 1 }
    else state
  if prevShortSMA ≥ prevLongSMA ∧ shortSMA < longSMA ∧ state1.positions ≠ [] then
    match state1.positions.getLast? with
    | some lastPosition =>
      if lastPosition.status = PositionStatus.OPEN then
        let closedPosition : Position :=
          { lastPosition with
            status := PositionStatus.CLOSED
            exit_price := some c.close_price
            pnl := calculatePnl lastPosition c.close_price }
        { state1 with positions := state1.positions.dropLast ++ [closedPosition] }
      else state1
    | none => state1
  else state1

/-- `StrategyService.simulateStrategy` for the `sma_crossover` family: one
pass over indices `longPeriod .. candles.length - 1`. -/
def simulateStrategy (shortPeriod longPeriod : Nat) (candles : List Candle) :
    List Position :=
  (((List.range candles.length).drop longPeriod).foldl
    (simStep shortPeriod longPeriod candles) ⟨[], 0⟩).positions

/-- The candle run refuting C4: closes 10, 10, 12, 12, 14.  With
`short_period = 1`, `long_period = 2` the short SMA crosses above the long
SMA at index 2 (opening a position), touches it exactly at index 3 (so the
death cross `short < long` does not fire), and crosses above again at
index 4 (opening a second position while the first is still OPEN). -/
def C4candles : List Candle :=
  [⟨0, "NIFTY", 0, 10, 0⟩, ⟨1, "NIFTY", 60, 10, 0⟩, ⟨2, "NIFTY", 120, 12, 0⟩,
   ⟨3, "NIFTY", 180, 12, 0⟩, ⟨4, "NIFTY", 240, 14, 0⟩]

/-- C4 counterexample: the run on `C4candles` with SMA periods 1/2 ends with
two positions created by the same run simultaneously OPEN, so a golden cross
occurring while a position of this run is open does open an additional
position. -/
theorem two_open_positions_counterexample :
    ¬ (((simulateStrategy 1 2 C4candles).filter
        (fun p => p.status = PositionStatus.OPEN)).length ≤ 1) := by
  with_unfolding_all decide

/-- C4 (amended): a golden cross is acted upon unconditionally — whenever
`prevShort <= prevLong` and `short > long` at index `i`, the step appends a
new OPEN position regardless of how many positions of the run are already
OPEN (the death-cross branch cannot fire in the same step since it needs
`short < long`). -/
theorem golden_cross_always_opens (shortPeriod longPeriod : Nat)
    (candles : List Candle) (state : SimState) (i : Nat)
    (hprev : calculateSMA candles (i - 1) shortPeriod ≤
      calculateSMA candles (i - 1) longPeriod)
    (hcross : calculateSMA candles i shortPeriod > calculateSMA candles i longPeriod) :
    (simStep shortPeriod longPeriod candles state i).positions
      = state.positions ++
        [mkSimPosition state.nextId (candles.getD i dummyCandle)] := by
  simp only [simStep]
  split_ifs with hbuy hsell hsell
  · exact absurd hsell.2.1 (not_lt.mpr (le_of_lt hcross))
  · rfl
  · exact absurd ⟨hprev, hcross⟩ hbuy
  · exact absurd ⟨hprev, hcross⟩ hbuy

/-- A state holding one OPEN position, for the C4 witness. -/
def C4openState : SimState :=
  ⟨[mkSimPosition 0 (C4candles.getD 2 dummyCandle)], 1⟩

theorem golden_cross_always_opens_witness :
    (simStep 1 2 C4candles C4openState 4).positions
      = C4openState.positions ++
        [mkSimPosition C4openState.nextId (C4candles.getD 4 dummyCandle)] :=
  golden_cross_always_opens 1 2 C4candles C4openState 4
    (by with_unfolding_all decide) (by with_unfolding_all decide)

/-! ## Backtest performance metrics (`calculatePerformanceMetrics`) -/

/-- The CLOSED positions of a run
(`positions.filter((p) => p.status === 'CLOSED')`). -/
def closedPositionsOf (positions : List Position) : List Position :=
  positions.filter (fun p => p.status = PositionStatus.CLOSED)

/-- `totalTrades`: the number of closed positions. -/
def totalTrades (positions : List Position) : Nat :=
  (closedPositionsOf positions).length

/-- `winningTrades`: closed positions with `pnl > 0`. -/
def winningTrades (positions : List Position) : Nat :=
  ((closedPositionsOf positions).filter (fun p => p.pnl > 0)).length

/-- `winRate = totalTrades > 0 ? winningTrades / totalTrades : 0`. -/
def winRate (positions : List Position) : ℚ :=
  if totalTrades positions > 0 then
    (winningTrades positions : ℚ) / (totalTrades positions : ℚ)
  else 0

/-- `totalPnl`: sum of the closed positions' pnl. -/
def totalPnl (positions : List Position) : ℚ :=
  ((closedPositionsOf positions).map Position.pnl).sum

/-- One iteration of the drawdown loop (part_002 lines 286-292), on the
accumulator `(maxDrawdown, peak, runningPnl)`: advance the running
cumulative P&L, lift the peak, and fold in the drawdown
`(peak - runningPnl) / (peak || 1)` — JavaScript `peak || 1` falls back to
1 exactly when `peak` is `0`. -/
def drawdownStep (acc : ℚ × ℚ × ℚ) (pnl : ℚ) : ℚ × ℚ × ℚ :=
  let runningPnl := acc.2.2 + pnl
  let peak := if runningPnl > acc.2.1 then runningPnl else acc.2.1
  let drawdown := (peak - runningPnl) / (if peak = 0 then 1 else peak)
  (max acc.1 drawdown, peak, runningPnl)

/-- The `maxDrawdown` reported by `calculatePerformanceMetrics`: the loop
folded over the closed positions starting from
`maxDrawdown = peak = runningPnl = 0`. -/
def maxDrawdown (positions : List Position) : ℚ :=
  (((closedPositionsOf positions).map Position.pnl).foldl drawdownStep (0, 0, 0)).1

/-- The per-step drawdowns of the walk as the spec words it: running
cumulative P&L, its running peak, and drawdown
`(peak - running) / max(peak, 1)` at each step. -/
def specDrawdowns (peak running : ℚ) : List ℚ → List ℚ
  | [] => []
  | pnl :: rest =>
    let running' := running + pnl
    let peak' := max peak running'
    (peak' - running') / max peak' 1 :: specDrawdowns peak' running' rest

/-- The spec's `max_drawdown`: the maximum drawdown observed across the
walk (0 when there is none). -/
def specMaxDrawdown (positions : List Position) : ℚ :=
  (specDrawdowns 0 0 ((closedPositionsOf positions).map Position.pnl)).foldl max 0

/-- The same walk with the code's actual denominator `peak || 1`: division
by `peak` itself whenever `peak` is nonzero, by 1 only when `peak = 0`. -/
def codeDrawdowns (peak running : ℚ) : List ℚ → List ℚ
  | [] => []
  | pnl :: rest =>
    let running' := running + pnl
    let peak' := max peak running'
    (peak' - running') / (if peak' = 0 then 1 else peak') ::
      codeDrawdowns peak' running' rest

/-- Two closed positions with pnl 1/2 and -1/2: the code's drawdown at the
second step is `(1/2 - 0) / (1/2) = 1` while the spec's formula gives
`(1/2 - 0) / max(1/2, 1) = 1/2`. -/
def C5positions : List Position :=
  [⟨0, "NIFTY", Side.BUY, 100, some (201/2), 1, PositionStatus.CLOSED, 1/2⟩,
   ⟨1, "NIFTY", Side.BUY, 100, some (199/2), 1, PositionStatus.CLOSED, -1/2⟩]

/-- C5 counterexample: on the run with closed pnls 1/2, -1/2 the reported
max_drawdown (1) differs from the spec's
`max over the walk of (peak - running) / max(peak, 1)` (1/2): the code
divides by `peak || 1`, which is `peak` itself for `0 < peak < 1`. -/
theorem drawdown_denominator_counterexample :
    maxDrawdown C5positions ≠ specMaxDrawdown C5positions := by
  with_unfolding_all decide

theorem jsPeak_eq_max (pk r : ℚ) : (if r > pk then r else pk) = max pk r := by
  rcases le_or_lt r pk with h | h
  · rw [if_neg (not_lt.mpr h), max_eq_left h]
  · rw [if_pos h, max_eq_right (le_of_lt h)]

theorem drawdown_fold_eq (l : List ℚ) : ∀ (a peak running : ℚ),
    (l.foldl drawdownStep (a, peak, running)).1
      = (codeDrawdowns peak running l).foldl max a := by
  induction l with
  | nil => intro a pk rn; rfl
  | cons pnl rest ih =>
      intro a pk rn
      simp only [List.foldl_cons, drawdownStep, codeDrawdowns, jsPeak_eq_max]
      exact ih _ _ _

/-- C5 (amended): the reported max_drawdown equals the maximum over the
chronological walk of `(peak - running) / (peak || 1)`, i.e. with
denominator `peak` itself whenever `peak` is nonzero and 1 only when
`peak = 0` (this agrees with the spec's `max(peak, 1)` except when
`0 < peak < 1`). -/
theorem maxDrawdown_eq_walk (positions : List Position) :
    maxDrawdown positions
      = (codeDrawdowns 0 0
          ((closedPositionsOf positions).map Position.pnl)).foldl max 0 := by
  unfold maxDrawdown
  exact drawdown_fold_eq _ 0 0 0

theorem drawdown_fold_ge (l : List ℚ) : ∀ (a peak running : ℚ),
    a ≤ (l.foldl drawdownStep (a, peak, running)).1 := by
  induction l with
  | nil => intro a pk rn; exact le_refl a
  | cons pnl rest ih =>
      intro a pk rn
      simp only [List.foldl_cons, drawdownStep]
      exact le_trans (le_max_left _ _) (ih _ _ _)

/-- `sharpeRatio` of `calculatePerformanceMetrics` (part_002 lines 273-283):
per-trade returns `pnl / (entry_price * quantity)`, their mean, population
variance, standard deviation by `Math.sqrt`, and
`stdDev > 0 ? mean / stdDev : 0`.  The square root forces this one metric
into `ℝ`. -/
noncomputable def sharpe (positions : List Position) : ℝ :=
  let returns : List ℚ :=
    (closedPositionsOf positions).map (fun p => p.pnl / (p.entry_price * p.quantity))
  let avgReturn : ℚ :=
    if returns.length > 0 then returns.sum / (returns.length : ℚ) else 0
  let returnVariance : ℚ :=
    if returns.length > 0 then
      (returns.map (fun ret => (ret - avgReturn) ^ 2)).sum / (returns.length : ℚ)
    else 0
  let returnStdDev : ℝ := Real.sqrt (returnVariance : ℝ)
  if returnStdDev > 0 then (avgReturn : ℝ) / returnStdDev else 0

/-- C8: the computed win_rate lies in [0, 1] and max_drawdown is >= 0, and
a run with zero closed positions reports win_rate, sharpe_ratio and
max_drawdown all exactly 0. -/
theorem metrics_safety (positions : List Position) :
    0 ≤ winRate positions ∧ winRate positions ≤ 1 ∧ 0 ≤ maxDrawdown positions ∧
    (closedPositionsOf positions = [] →
      winRate positions = 0 ∧ sharpe positions = 0 ∧ maxDrawdown positions = 0) := by
  refine ⟨?_, ?_, ?_, ?_⟩
  · unfold winRate
    split_ifs with h
    · positivity
    · exact le_refl 0
  · unfold winRate
    split_ifs with h
    · rw [div_le_one (by exact_mod_cast h)]
      exact_mod_cast List.length_filter_le _ _
    · exact zero_le_one
  · exact drawdown_fold_ge _ 0 0 0
  · intro h
    refine ⟨?_, ?_, ?_⟩
    · simp [winRate, totalTrades, h]
    · simp [sharpe, h, Real.sqrt_zero]
    · unfold maxDrawdown
      rw [h]
      rfl

theorem metrics_safety_witness :
    winRate [] = 0 ∧ sharpe [] = 0 ∧ maxDrawdown [] = 0 :=
  (metrics_safety []).2.2.2 rfl

/-! ## Paper-trading service state (`PaperTradingService` and repositories)

The `orders` and `holdings` tables are keyed maps (by id, by instrument);
the `positions` table keeps insertion order as a list.  Thrown service
errors become `Except.error`; since a failed call returns no new state, the
stored tables are untouched exactly as in the source, where the SQL UPDATE
runs only after the checks succeed. -/

/-- The error classes thrown by the service layer. -/
inductive TradingError
  | NotFoundError
  | ValidationError
  | InternalError
deriving DecidableEq

/-- The stored tables, plus the ids the repositories will give the next
created order/position row. -/
structure TradingState where
  orders : Nat → Option Order
  holdings : String → Option Holding
  positions : List Position
  nextOrderId : Nat
  nextPositionId : Nat

/-- A fresh database. -/
def emptyState : TradingState :=
  ⟨fun _ => none, fun _ => none, [], 0, 0⟩

/-- `OrderRepository.getOrderById`. -/
def getOrderById (st : TradingState) (id : Nat) : Option Order :=
  st.orders id

/-- `HoldingRepository.getHolding`. -/
def getHolding (st : TradingState) (instrument : String) : Option Holding :=
  st.holdings instrument

/-- `PositionRepository.getPositionById`. -/
def getPositionById (st : TradingState) (id : Nat) : Option Position :=
  st.positions.find? (fun p => p.id = id)

/-- `HoldingRepository.updateHolding` against the state: read the stored
row, combine via `updateHolding`, upsert the result (the
`ON CONFLICT (instrument)` upsert is the keyed map update). -/
def repoUpdateHolding (st : TradingState) (instrument : String)
    (quantity averagePrice realizedPnl : ℚ) : TradingState :=
  let h := updateHolding (getHolding st instrument) quantity averagePrice realizedPnl
  { st with holdings := fun i => if i = instrument then some h else st.holdings i }

/-- `OrderRepository.updateOrderStatus`: set the status; for a FILLED status
with a fill quantity given, also the fill columns (`filledPrice` only when
given).  Returns the updated row, or `none` for an unknown id. -/
def updateOrderStatus (st : TradingState) (id : Nat) (status : OrderStatus)
    (filledQuantity filledPrice : Option ℚ) : TradingState × Option Order :=
  match getOrderById st id with
  | none => (st, none)
  | some o =>
    let o1 :=
      if status = OrderStatus.FILLED then
        match filledQuantity with
        | some fq =>
          match filledPrice with
          | some fp =>
            { o with status := status, filled_quantity := fq, filled_price := fp }
          | none => { o with status := status, filled_quantity := fq }
        | none => { o with status := status }
      else { o with status := status }
    ({ st with orders := fun i => if i = id then some o1 else st.orders i }, some o1)

/-- `PositionRepository.createPosition`: insert an OPEN row with the schema
default `pnl = 0`. -/
def repoCreatePosition (st : TradingState) (instrument : String) (side : Side)
    (entryPrice quantity : ℚ) : TradingState × Position :=
  let p : Position :=
    ⟨st.nextPositionId, instrument, side, entryPrice, none, quantity,
      PositionStatus.OPEN, 0⟩
  let st1 := { st with
    positions := st.positions ++ [p]
    nextPositionId := st.nextPositionId + 1 }
  (st1, p)

/-- `PositionRepository.closePosition` (lines 27-45): `null` for a missing
or already-CLOSED position — leaving the table untouched — else compute the
pnl via `calculatePnl` and update the row to CLOSED. -/
def repoClosePosition (st : TradingState) (id : Nat) (exitPrice : ℚ) :
    TradingState × Option Position :=
  match getPositionById st id with
  | none => (st, none)
  | some position =>
    if position.status = PositionStatus.CLOSED then (st, none)
    else
      let closed :=
        { position with
          status := PositionStatus.CLOSED
          exit_price := some exitPrice
          pnl := calculatePnl position exitPrice }
      let st1 := { st with
        positions := st.positions.map (fun p => if p.id = id then closed else p) }
      (st1, some closed)

/-- `PaperTradingService.updateHoldingFromPositionClosure` (lines 227-238):
fold the closed position's pnl into the holding's realized total, keeping
the stored quantity and average price; a missing holding returns with no
change. -/
def updateHoldingFromPositionClosure (st : TradingState) (position : Position) :
    TradingState :=
  match getHolding st position.instrument with
  | none => st
  | some holding =>
    repoUpdateHolding st position.instrument holding.quantity
      holding.average_price position.pnl

/-- `PaperTradingService.closePosition` (lines 113-124): repository close
(NotFound when it returns null), then the holding update. -/
def closePositionService (st : TradingState) (positionId : Nat) (exitPrice : ℚ) :
    Except TradingError (TradingState × Position) :=
  match repoClosePosition st positionId exitPrice with
  | (_, none) => Except.error TradingError.NotFoundError
  | (st1, some position) =>
    Except.ok (updateHoldingFromPositionClosure st1 position, position)

/-- `PaperTradingService.updateHoldingFromOrder` against the state. -/
def serviceUpdateHoldingFromOrder (st : TradingState) (order : Order) :
    TradingState :=
  let v := holdingUpdateValues (getHolding st order.instrument) order
  repoUpdateHolding st order.instrument v.1 v.2.1 v.2.2

/-- `PaperTradingService.createPositionFromOrder` (lines 217-225). -/
def createPositionFromOrder (st : TradingState) (order : Order) : TradingState :=
  (repoCreatePosition st order.instrument order.side (fillPrice order)
    order.filled_quantity).1

/-- `PaperTradingService.fillOrder` (lines 29-61): the optional
`filledQuantity` / `filledPrice` arguments default through JavaScript `||`
to the order's own quantity and price, then the order is marked FILLED, the
holding updated and a position created. -/
def fillOrder (st : TradingState) (orderId : Nat)
    (filledQuantity filledPrice : Option ℚ) :
    Except TradingError (TradingState × Order) :=
  match getOrderById st orderId with
  | none => Except.error TradingError.NotFoundError
  | some order =>
    if order.status ≠ OrderStatus.PENDING then
      Except.error TradingError.ValidationError
    else
      let finalFilledQuantity := jsOr filledQuantity order.quantity
      let finalFilledPrice := jsOr filledPrice order.price
      match updateOrderStatus st orderId OrderStatus.FILLED
          (some finalFilledQuantity) (some finalFilledPrice) with
      | (_, none) => Except.error TradingError.InternalError
      | (st1, some updatedOrder) =>
        let st2 := serviceUpdateHoldingFromOrder st1 updatedOrder
        let st3 := createPositionFromOrder st2 updatedOrder
        Except.ok (st3, updatedOrder)

/-- `CreateOrderRequest`. -/
structure CreateOrderRequest where
  instrument : String
  side : Side
  quantity : ℚ
  price : ℚ
deriving DecidableEq

/-- `PaperTradingService.validateOrderData` (lines 240-260): non-empty
instrument, positive quantity, positive price (the side and the time are
well-typed by construction). -/
def validateOrderData (orderData : CreateOrderRequest) : Option TradingError :=
  if orderData.instrument = "" then some TradingError.ValidationError
  else if orderData.quantity ≤ 0 then some TradingError.ValidationError
  else if orderData.price ≤ 0 then some TradingError.ValidationError
  else none

/-- `OrderRepository.createOrder`: insert a PENDING row with the schema
defaults (`filled_quantity` 0, `filled_price` null, modelled 0). -/
def repoCreateOrder (st : TradingState) (orderData : CreateOrderRequest) :
    TradingState × Order :=
  let o : Order :=
    ⟨st.nextOrderId, orderData.instrument, orderData.side, orderData.quantity,
      orderData.price, OrderStatus.PENDING, 0, 0⟩
  let st1 := { st with
    orders := fun i => if i = st.nextOrderId then some o else st.orders i
    nextOrderId := st.nextOrderId + 1 }
  (st1, o)

/-- `PaperTradingService.createOrder` (lines 18-27): validate, insert, then
immediately fill at the requested quantity and price, returning the
re-fetched order row. -/
def createOrder (st : TradingState) (orderData : CreateOrderRequest) :
    Except TradingError (TradingState × Order) :=
  match validateOrderData orderData with
  | some e => Except.error e
  | none =>
    let r := repoCreateOrder st orderData
    match fillOrder r.1 r.2.id (some orderData.quantity) (some orderData.price) with
    | Except.error e => Except.error e
    | Except.ok (st2, _) =>
      match getOrderById st2 r.2.id with
      | some o => Except.ok (st2, o)
      | none => Except.error TradingError.InternalError

/-- C9: `closePosition` on a nonexistent or already-CLOSED position fails
with NotFound; the repository's UPDATE runs only after that check, so a
failed call leaves the stored position untouched — the embedding returns
the bare error and the caller keeps the unchanged state. -/
theorem close_missing_or_closed_fails (st : TradingState) (pid : Nat) (x : ℚ)
    (h : getPositionById st pid = none ∨
      ∃ p, getPositionById st pid = some p ∧ p.status = PositionStatus.CLOSED) :
    closePositionService st pid x = Except.error TradingError.NotFoundError := by
  rcases h with h | ⟨p, hp, hclosed⟩
  · simp [closePositionService, repoClosePosition, h]
  · simp [closePositionService, repoClosePosition, hp, hclosed]

theorem close_missing_or_closed_fails_witness :
    closePositionService emptyState 0 100 = Except.error TradingError.NotFoundError :=
  close_missing_or_closed_fails emptyState 0 100 (Or.inl rfl)

/-- The request of the C7 concrete scenario: BUY 10 @ 100. -/
def C7req : CreateOrderRequest := ⟨"A", Side.BUY, 10, 100⟩

/-- The state after opening the long of 10 @ 100 through the service. -/
def C7afterOpen : TradingState :=
  match createOrder emptyState C7req with
  | Except.ok (st, _) => st
  | Except.error _ => emptyState

/-- The state and closed position after closing position 0 at 110. -/
def C7afterClose : TradingState × Option Position :=
  match closePositionService C7afterOpen 0 110 with
  | Except.ok (st, p) => (st, some p)
  | Except.error _ => (C7afterOpen, none)

/-- C7: closing an OPEN position at exit price `x` yields
`pnl = (x - entry) * qty` for a BUY position and `(entry - x) * qty` for a
SELL position, and the instrument's holding gains exactly that pnl on its
realized total (added to the stored value, never overwritten); in
particular opening a long of 10 @ 100 and closing at 110 realizes exactly
100. -/
theorem close_position_pnl_and_holding :
    (∀ (st : TradingState) (pid : Nat) (x : ℚ) (position : Position) (h : Holding),
      getPositionById st pid = some position →
      position.status = PositionStatus.OPEN →
      getHolding st position.instrument = some h →
      ∃ st',
        closePositionService st pid x
          = Except.ok (st', { position with
              status := PositionStatus.CLOSED
              exit_price := some x
              pnl := calculatePnl position x }) ∧
        calculatePnl position x =
          (match position.side with
            | Side.BUY => (x - position.entry_price) * position.quantity
            | Side.SELL => (position.entry_price - x) * position.quantity) ∧
        (getHolding st' position.instrument).map Holding.realized_pnl
          = some (h.realized_pnl + calculatePnl position x)) ∧
    (C7afterClose.2.map Position.pnl = some 100 ∧
      (getHolding C7afterOpen "A").map Holding.realized_pnl = some 0 ∧
      (getHolding C7afterClose.1 "A").map Holding.realized_pnl = some 100) := by
  constructor
  · intro st pid x position h hpos hopen hhold
    have hne : ¬ position.status = PositionStatus.CLOSED := by
      rw [hopen]
      intro hc
      cases hc
    simp only [closePositionService, repoClosePosition, hpos, hopen, reduceCtorEq,
      if_false]
    refine ⟨_, rfl, ?_, ?_⟩
    · cases hside : position.side <;> simp [calculatePnl, hside]
    · simp only [getHolding] at hhold
      simp only [updateHoldingFromPositionClosure, repoUpdateHolding, getHolding,
        updateHolding, hhold]
      simp
  · with_unfolding_all decide

/-- One OPEN position and its holding, for the C7 witness. -/
def C7state : TradingState :=
  { emptyState with
    positions := [⟨0, "A", Side.BUY, 100, none, 10, PositionStatus.OPEN, 0⟩]
    holdings := fun i => if i = "A" then some ⟨10, 100, 1000, 0, 0⟩ else none }

theorem close_position_pnl_and_holding_witness :
    ∃ st',
      closePositionService C7state 0 110
        = Except.ok (st',
          { (⟨0, "A", Side.BUY, 100, none, 10, PositionStatus.OPEN, 0⟩ : Position) with
            status := PositionStatus.CLOSED
            exit_price := some (110 : ℚ)
            pnl := calculatePnl ⟨0, "A", Side.BUY, 100, none, 10, PositionStatus.OPEN, 0⟩ 110 }) ∧
      calculatePnl ⟨0, "A", Side.BUY, 100, none, 10, PositionStatus.OPEN, 0⟩ 110 =
        (match (⟨0, "A", Side.BUY, 100, none, 10, PositionStatus.OPEN, 0⟩ : Position).side with
          | Side.BUY => ((110 : ℚ) - 100) * 10
          | Side.SELL => ((100 : ℚ) - 110) * 10) ∧
      (getHolding st' "A").map Holding.realized_pnl
        = some ((0 : ℚ) + calculatePnl ⟨0, "A", Side.BUY, 100, none, 10, PositionStatus.OPEN, 0⟩ 110) :=
  close_position_pnl_and_holding.1 C7state 0 110
    ⟨0, "A", Side.BUY, 100, none, 10, PositionStatus.OPEN, 0⟩ ⟨10, 100, 1000, 0, 0⟩
    (by with_unfolding_all rfl) rfl (by with_unfolding_all rfl)

theorem jsOr_some_zero (y : ℚ) : jsOr (some 0) y = jsOr none y := by
  simp [jsOr]

theorem jsOr_ne_zero (x : Option ℚ) (y : ℚ) (hy : 0 < y) : jsOr x y ≠ 0 := by
  cases x with
  | none => exact ne_of_gt hy
  | some v =>
      show (if v = 0 then y else v) ≠ 0
      split_ifs with hv
      · exact ne_of_gt hy
      · exact hv

/-- C10: `fillOrder` with `filledQuantity = 0` or `filledPrice = 0` behaves
identically to omitting the argument (JavaScript `||` treats 0 as absent),
so for a pending order with positive quantity and price no zero fill
quantity or price can be recorded through this operation. -/
theorem fill_zero_defaults :
    (∀ (st : TradingState) (oid : Nat) (fp : Option ℚ),
      fillOrder st oid (some 0) fp = fillOrder st oid none fp) ∧
    (∀ (st : TradingState) (oid : Nat) (fq : Option ℚ),
      fillOrder st oid fq (some 0) = fillOrder st oid fq none) ∧
    (∀ (st : TradingState) (oid : Nat) (fq fp : Option ℚ) (order : Order)
        (st' : TradingState) (o' : Order),
      getOrderById st oid = some order →
      0 < order.quantity → 0 < order.price →
      fillOrder st oid fq fp = Except.ok (st', o') →
      o'.filled_quantity ≠ 0 ∧ o'.filled_price ≠ 0) := by
  refine ⟨?_, ?_, ?_⟩
  · intro st oid fp
    simp only [fillOrder, jsOr_some_zero]
  · intro st oid fq
    simp only [fillOrder, jsOr_some_zero]
  · intro st oid fq fp order st' o' horder hq hp hfill
    simp only [fillOrder, horder, updateOrderStatus] at hfill
    by_cases hpend : order.status = OrderStatus.PENDING
    · rw [hpend] at hfill
      simp only [ne_eq, not_true_eq_false, if_false, Except.ok.injEq,
        Prod.mk.injEq] at hfill
      obtain ⟨-, ho⟩ := hfill
      subst ho
      exact ⟨jsOr_ne_zero fq order.quantity hq, jsOr_ne_zero fp order.price hp⟩
    · simp [hpend] at hfill

/-- A pending BUY order of 10 @ 100 under id 0, for the C10 witness. -/
def C10state : TradingState :=
  { emptyState with
    orders := fun i =>
      if i = 0 then some ⟨0, "A", Side.BUY, 10, 100, OrderStatus.PENDING, 0, 0⟩ else none }

theorem fill_zero_defaults_witness :
    fillOrder C10state 0 (some 0) (some 100) = fillOrder C10state 0 none (some 100) :=
  fill_zero_defaults.1 C10state 0 (some 100)

end Raite
